import Mathlib

/-!
Shallow embedding of the schedule-resolution and override-arbitration core of
`custom_components/climate_scheduler/climate.py`, together with proofs of the
spec's testable properties.

Modelling conventions:
* Times of day (`Slot.time`, the `tod` argument of `tick`) are minutes since
  midnight. The source stores slot times as zero-padded "HH:MM" strings and
  sorts them lexicographically, which coincides with numeric order on minutes
  for well-formed values, and compares the parsed `time` objects to `now`.
* Absolute instants (`SchedState.lastChange`, the `nowAbs` argument) are
  seconds. The source computes `(datetime.now() - last).total_seconds() / 60
  < 30`, which over exact arithmetic is `seconds < 1800`.
* Temperatures are rationals (the source uses Python floats on small decimal
  configuration values).
* Python dictionaries (`_schedules`, `_presets`, a slot's keys) are
  association lists; `dict.get(k, d)` is `(List.lookup k).getD d`. A slot's
  "preset" key is modelled as always present; Python truthiness of the
  resolved preset (`if active_preset`) is `none`-ness plus the empty-string
  test.
* Each Lean function carries the line range of the Python it embeds; the
  `Bool` component of an operation's result records whether an apply-request
  was dispatched to the downstream climate entity
  (`_async_apply_to_climate_entity`).
-/

namespace ClimateScheduler

/-- A schedule table entry: `{"time": "HH:MM", "preset": name}`
(`climate.py` slot dicts), with the time in minutes since midnight. -/
structure Slot where
  time : Nat
  preset : String
deriving DecidableEq, Repr

/-- A preset catalog entry: the value of `self._presets[name]`, a dict that
may or may not carry a "temperature" key. -/
structure PresetCfg where
  temperature : Option ℚ
deriving DecidableEq, Repr

/-- The controller's mutable state: `_attr_preset_mode`,
`_attr_target_temperature`, `_attr_hvac_mode`, `_last_preset_change`
(`climate.py` lines 82-90). -/
structure SchedState where
  preset : String
  target : Option ℚ
  hvac : String
  lastChange : Option Nat
deriving DecidableEq, Repr

/-- `_attr_preset_modes = [PRESET_HOME, PRESET_AWAY, PRESET_SLEEP,
PRESET_VACATION]` (`climate.py` line 62, `const.py` lines 18-21). -/
def presetModes : List String := ["home", "away", "sleep", "vacation"]

/-- Ordering of slots by time of day, the sort key
`lambda x: x.get("time", "00:00")` of `climate.py` lines 189/248/261. -/
def slotLE (a b : Slot) : Prop := a.time ≤ b.time

instance : DecidableRel slotLE := fun a b => Nat.decLe a.time b.time

instance : IsTotal Slot slotLE := ⟨fun a b => Nat.le_total a.time b.time⟩

instance : IsTrans Slot slotLE := ⟨fun _ _ _ h h2 => Nat.le_trans h h2⟩

/-- `sorted(day_schedule, key=lambda x: x.get("time", "00:00"))`. Python's
`sorted` is a stable sort, as is insertion sort, so they agree on every
input. -/
def sortSlots (l : List Slot) : List Slot := List.insertionSort slotLE l

/-- The loop body of `_async_check_schedule` lines 188-194: walk the sorted
slots, remembering the preset of every slot whose time is `<= now`, and stop
at the first later slot. -/
def findActiveGo (now : Nat) : List Slot → Option String → Option String
  | [], acc => acc
  | s :: rest, acc =>
      if s.time ≤ now then findActiveGo now rest (some s.preset) else acc

/-- The schedule resolver `activePresetAt`: `_async_check_schedule` lines
187-194 applied to one day's slot list. -/
def activePresetAt (sch : List Slot) (now : Nat) : Option String :=
  findActiveGo now (sortSlots sch) none

/-- The shared loop of `_get_next_schedule` lines 248-252 and
`_get_next_temperature` lines 261-266: the first slot of the sorted list
whose time is strictly after `now` (both Python loops return out of the same
`for slot in sorted(...)` pattern; they differ only in what they project from
the found slot). -/
def firstFutureSlot (now : Nat) : List Slot → Option Slot
  | [] => none
  | s :: rest => if now < s.time then some s else firstFutureSlot now rest

/-- `_get_next_schedule` (lines 241-252): the time of the first slot strictly
after `now`, `none` if there is none. The source returns the slot's "time"
string; we return the parsed minutes. -/
def getNextSchedule (sch : List Slot) (now : Nat) : Option Nat :=
  (firstFutureSlot now (sortSlots sch)).map (fun s => s.time)

/-- `_get_next_temperature` (lines 254-266): the temperature of the next
slot's preset, looked up as `self._presets.get(preset, {}).get("temperature")`
-- note: no default. -/
def getNextTemperature (sch : List Slot) (presets : List (String × PresetCfg))
    (now : Nat) : Option ℚ :=
  match firstFutureSlot now (sortSlots sch) with
  | none => none
  | some s => ((presets.lookup s.preset).getD ⟨none⟩).temperature

/-- The preset temperature used by `async_set_preset_mode` line 165:
`self._presets.get(preset_mode, {}).get("temperature", 21)` -- note the
default of 21. -/
def presetTemp (presets : List (String × PresetCfg)) (name : String) : ℚ :=
  (((presets.lookup name).getD ⟨none⟩).temperature).getD 21

/-- `async_set_preset_mode` (lines 155-169). Rejects names outside
`_attr_preset_modes` with only a warning; otherwise sets the preset, stamps
`_last_preset_change = now`, sets the target temperature from the catalog
(default 21) and dispatches an apply-request. The `Bool` records the
dispatch. -/
def setPresetMode (presets : List (String × PresetCfg)) (st : SchedState)
    (now : Nat) (p : String) : SchedState × Bool :=
  if p ∈ presetModes then
    ({ st with
        preset := p
        lastChange := some now
        target := some (presetTemp presets p) }, true)
  else (st, false)

/-- `async_set_temperature` (lines 142-147): `if temperature :=
kwargs.get(ATTR_TEMPERATURE):` -- acts only when the supplied value is
truthy (present and nonzero). -/
def setTemperature (st : SchedState) (temperature : Option ℚ) :
    SchedState × Bool :=
  match temperature with
  | none => (st, false)
  | some t => if t ≠ 0 then ({ st with target := some t }, true) else (st, false)

/-- `self._schedules.get(schedule_type, [])` with `schedule_type =
SCHEDULE_WEEKDAY if current_day < 5 else SCHEDULE_WEEKEND`
(`_async_check_schedule` lines 181-182). -/
def dayScheduleOf (schedules : List (String × List Slot)) (isWeekday : Bool) :
    List Slot :=
  (schedules.lookup (if isWeekday then "weekday" else "weekend")).getD []

/-- `_async_check_schedule` (lines 171-209), the `onTick` entry point.
`tod` is the clock's time of day in minutes, `nowAbs` the absolute instant in
seconds (the source draws both from `datetime.now()`). Empty schedule dict or
empty day list: no-op. Otherwise resolve the active preset; if it is truthy
and differs from the current preset, suppress when `_last_preset_change` is
set and less than 30 minutes old, else delegate to `async_set_preset_mode`. -/
def tick (schedules : List (String × List Slot))
    (presets : List (String × PresetCfg)) (isWeekday : Bool)
    (tod : Nat) (nowAbs : Nat) (st : SchedState) : SchedState × Bool :=
  if schedules = [] then (st, false)
  else if dayScheduleOf schedules isWeekday = [] then (st, false)
  else
      match activePresetAt (dayScheduleOf schedules isWeekday) tod with
      | none => (st, false)
      | some p =>
        if p = "" then (st, false)
        else if p = st.preset then (st, false)
        else
          match st.lastChange with
          | some last =>
              if nowAbs - last < 1800 then (st, false)
              else setPresetMode presets st nowAbs p
          | none => setPresetMode presets st nowAbs p

/-- A restored-state attribute value, as seen by `float(...)`: either a value
`float` converts (a number or numeric string) or one it raises on. -/
inductive AttrVal
  | num (q : ℚ)
  | nonNumeric
deriving DecidableEq, Repr

/-- `float(v)`: `some` the numeric value, `none` when Python would raise
`ValueError`/`TypeError`. -/
def floatOfAttr : AttrVal → Option ℚ
  | .num q => some q
  | .nonNumeric => none

/-- A persisted snapshot (`last_state`): its `state` string (possibly `None`)
and the two attributes `async_added_to_hass` reads. -/
structure Snapshot where
  state : Option String
  temperature : Option AttrVal
  presetMode : Option String
deriving DecidableEq, Repr

/-- The restore block of `async_added_to_hass` (lines 117-124). One `try`
covers both assignments: `float(attributes.get("temperature", 21))` and
`attributes.get("preset_mode", PRESET_HOME)`; a conversion failure skips the
whole block (`except (ValueError, TypeError): pass`). -/
def restoreState (st : SchedState) (snap : Option Snapshot) : SchedState :=
  match snap with
  | none => st
  | some s =>
    if s.state = some "unavailable" ∨ s.state = some "unknown" ∨ s.state = none
    then st
    else
      match floatOfAttr ((s.temperature).getD (.num 21)) with
      | none => st
      | some q =>
          { st with target := some q, preset := (s.presetMode).getD "home" }

theorem sortSlots_perm (l : List Slot) : List.Perm (sortSlots l) l :=
  List.perm_insertionSort slotLE l

theorem sortSlots_sorted (l : List Slot) : List.Sorted slotLE (sortSlots l) :=
  List.sorted_insertionSort slotLE l

theorem findActiveGo_isSome (now : Nat) (l : List Slot) (x : String) :
    ∃ y, findActiveGo now l (some x) = some y := by
  induction l generalizing x with
  | nil => exact ⟨x, rfl⟩
  | cons s rest ih =>
    simp only [findActiveGo]
    split
    · exact ih s.preset
    · exact ⟨x, rfl⟩

theorem findActiveGo_all_gt (now : Nat) (l : List Slot) (acc : Option String)
    (h : ∀ s ∈ l, now < s.time) : findActiveGo now l acc = acc := by
  induction l with
  | nil => rfl
  | cons s rest ih =>
    have hs := h s (List.mem_cons_self s rest)
    simp only [findActiveGo, if_neg (by omega : ¬ s.time ≤ now)]

theorem findActiveGo_none_iff (now : Nat) (l : List Slot)
    (hs : List.Sorted slotLE l) :
    findActiveGo now l none = none ↔ ∀ s ∈ l, now < s.time := by
  induction l with
  | nil => simp [findActiveGo]
  | cons s rest ih =>
    rw [List.sorted_cons] at hs
    obtain ⟨hall, hrest⟩ := hs
    simp only [findActiveGo]
    by_cases h : s.time ≤ now
    · rw [if_pos h]
      obtain ⟨y, hy⟩ := findActiveGo_isSome now rest s.preset
      rw [hy]
      constructor
      · intro hc; exact absurd hc (by simp)
      · intro hc
        exact absurd h (by
          have := hc s (List.mem_cons_self s rest); omega)
    · rw [if_neg h]
      constructor
      · intro _ t ht
        rcases List.mem_cons.mp ht with rfl | ht
        · omega
        · have := hall t ht
          unfold slotLE at this
          omega
      · intro _; rfl

theorem findActiveGo_max (now : Nat) (l : List Slot)
    (hs : List.Sorted slotLE l) (acc : Option String)
    (hq : ∃ s ∈ l, s.time ≤ now) :
    ∃ s ∈ l, s.time ≤ now ∧ (∀ t ∈ l, t.time ≤ now → t.time ≤ s.time) ∧
      findActiveGo now l acc = some s.preset := by
  induction l generalizing acc with
  | nil => simp at hq
  | cons s rest ih =>
    rw [List.sorted_cons] at hs
    obtain ⟨hall, hrest⟩ := hs
    by_cases hst : s.time ≤ now
    · simp only [findActiveGo, if_pos hst]
      by_cases hq2 : ∃ t ∈ rest, t.time ≤ now
      · obtain ⟨t, htmem, htle, htmax, heq⟩ := ih hrest (some s.preset) hq2
        refine ⟨t, List.mem_cons_of_mem s htmem, htle, ?_, heq⟩
        intro u hu hule
        rcases List.mem_cons.mp hu with rfl | hu
        · exact hall t htmem
        · exact htmax u hu hule
      · push_neg at hq2
        have hgt : ∀ t ∈ rest, now < t.time := fun t ht => by
          have := hq2 t ht; omega
        refine ⟨s, List.mem_cons_self s rest, hst, ?_, ?_⟩
        · intro u hu hule
          rcases List.mem_cons.mp hu with rfl | hu
          · exact Nat.le_refl _
          · exact absurd hule (by have := hgt u hu; omega)
        · exact findActiveGo_all_gt now rest (some s.preset) hgt
    · exfalso
      obtain ⟨t, htmem, htle⟩ := hq
      rcases List.mem_cons.mp htmem with rfl | htmem
      · exact hst htle
      · have := hall t htmem
        unfold slotLE at this
        omega

theorem firstFutureSlot_none_iff (now : Nat) (l : List Slot) :
    firstFutureSlot now l = none ↔ ∀ s ∈ l, s.time ≤ now := by
  induction l with
  | nil => simp [firstFutureSlot]
  | cons s rest ih =>
    simp only [firstFutureSlot]
    by_cases h : now < s.time
    · rw [if_pos h]
      constructor
      · intro hc; exact absurd hc (by simp)
      · intro hc
        have := hc s (List.mem_cons_self s rest)
        omega
    · rw [if_neg h, ih]
      constructor
      · intro hc t ht
        rcases List.mem_cons.mp ht with rfl | ht
        · omega
        · exact hc t ht
      · intro hc t ht
        exact hc t (List.mem_cons_of_mem s ht)

theorem firstFutureSlot_min (now : Nat) (l : List Slot)
    (hs : List.Sorted slotLE l) (s : Slot)
    (h : firstFutureSlot now l = some s) :
    s ∈ l ∧ now < s.time ∧ ∀ t ∈ l, now < t.time → s.time ≤ t.time := by
  induction l with
  | nil => simp [firstFutureSlot] at h
  | cons a rest ih =>
    rw [List.sorted_cons] at hs
    obtain ⟨hall, hrest⟩ := hs
    simp only [firstFutureSlot] at h
    by_cases ha : now < a.time
    · rw [if_pos ha] at h
      have has : a = s := by injection h
      subst has
      refine ⟨List.mem_cons_self a rest, ha, ?_⟩
      intro t ht _
      rcases List.mem_cons.mp ht with rfl | ht
      · exact Nat.le_refl _
      · exact hall t ht
    · rw [if_neg ha] at h
      obtain ⟨hmem, hgt, hmin⟩ := ih hrest h
      refine ⟨List.mem_cons_of_mem a hmem, hgt, ?_⟩
      intro t ht htg
      rcases List.mem_cons.mp ht with rfl | ht
      · omega
      · exact hmin t ht htg

/-- C4: on every table and time, `activePresetAt` returns `none` exactly when
`now` precedes every slot of the day type, and otherwise returns the preset of
a slot achieving the latest time at or before `now` — with no sortedness
assumption on the stored list. -/
theorem activePresetAt_correct (sch : List Slot) (now : Nat) :
    (activePresetAt sch now = none ↔ ∀ s ∈ sch, now < s.time) ∧
    (∀ p, activePresetAt sch now = some p →
      ∃ s ∈ sch, s.time ≤ now ∧ s.preset = p ∧
        ∀ t ∈ sch, t.time ≤ now → t.time ≤ s.time) := by
  have hperm := sortSlots_perm sch
  have hsorted := sortSlots_sorted sch
  constructor
  · rw [activePresetAt, findActiveGo_none_iff now _ hsorted]
    constructor
    · intro h s hs
      exact h s (hperm.mem_iff.mpr hs)
    · intro h s hs
      exact h s (hperm.mem_iff.mp hs)
  · intro p hp
    have hq : ∃ s ∈ sortSlots sch, s.time ≤ now := by
      by_contra hc
      push_neg at hc
      have hall : ∀ s ∈ sortSlots sch, now < s.time := fun s hs => by
        have := hc s hs; omega
      rw [activePresetAt,
        findActiveGo_all_gt now _ none hall] at hp
      exact Option.noConfusion hp
    obtain ⟨s, hmem, hle, hmax, heq⟩ :=
      findActiveGo_max now (sortSlots sch) hsorted none hq
    rw [activePresetAt] at hp
    rw [heq, Option.some.injEq] at hp
    refine ⟨s, hperm.mem_iff.mp hmem, hle, hp.symm ▸ rfl, ?_⟩
    intro t ht htle
    exact hmax t (hperm.mem_iff.mpr ht) htle

/-- C5: `_get_next_schedule` never returns a time at or before `now`; when it
returns a time it is the smallest slot time strictly after `now`; and it
returns `none` exactly when no slot lies strictly after `now`. -/
theorem getNextSchedule_correct (sch : List Slot) (now : Nat) :
    (∀ t, getNextSchedule sch now = some t →
      now < t ∧ (∃ s ∈ sch, s.time = t) ∧
        ∀ s ∈ sch, now < s.time → t ≤ s.time) ∧
    (getNextSchedule sch now = none ↔ ∀ s ∈ sch, s.time ≤ now) := by
  have hperm := sortSlots_perm sch
  have hsorted := sortSlots_sorted sch
  constructor
  · intro t ht
    rw [getNextSchedule] at ht
    match hfs : firstFutureSlot now (sortSlots sch) with
    | none => rw [hfs] at ht; exact Option.noConfusion ht
    | some s =>
      rw [hfs] at ht
      obtain ⟨hmem, hgt, hmin⟩ :=
        firstFutureSlot_min now (sortSlots sch) hsorted s hfs
      have hts : s.time = t := by injection ht
      subst hts
      refine ⟨hgt, ⟨s, hperm.mem_iff.mp hmem, rfl⟩, ?_⟩
      intro u hu hug
      exact hmin u (hperm.mem_iff.mpr hu) hug
  · have hmap : getNextSchedule sch now = none ↔
        firstFutureSlot now (sortSlots sch) = none := by
      rw [getNextSchedule]
      cases firstFutureSlot now (sortSlots sch) with
      | none => simp
      | some s => simp
    rw [hmap, firstFutureSlot_none_iff]
    constructor
    · intro h s hs
      exact h s (hperm.mem_iff.mpr hs)
    · intro h s hs
      exact h s (hperm.mem_iff.mp hs)

/-- C9: `_get_next_temperature` propagates absence as `none`: it is `none`
whenever there is no next transition, and whenever the next transition's
preset is absent from the preset catalog. -/
theorem getNextTemperature_none_propagates (sch : List Slot)
    (presets : List (String × PresetCfg)) (now : Nat) :
    (getNextSchedule sch now = none →
      getNextTemperature sch presets now = none) ∧
    (∀ s, firstFutureSlot now (sortSlots sch) = some s →
      presets.lookup s.preset = none →
      getNextTemperature sch presets now = none) := by
  constructor
  · intro h
    have h2 : firstFutureSlot now (sortSlots sch) = none := by
      rw [getNextSchedule] at h
      cases hfs : firstFutureSlot now (sortSlots sch) with
      | none => rfl
      | some s => rw [hfs] at h; simp at h
    rw [getNextTemperature, h2]
  · intro s hs hlk
    rw [getNextTemperature, hs]
    show ((presets.lookup s.preset).getD ⟨none⟩).temperature = none
    rw [hlk]
    rfl

/-- The weekday table of the spec's Scenario A, in minutes:
06:00 home, 08:00 away, 17:00 home, 22:00 sleep. -/
def demoTable : List Slot :=
  [⟨360, "home"⟩, ⟨480, "away"⟩, ⟨1020, "home"⟩, ⟨1320, "sleep"⟩]

/-- The preset catalog of the spec's scenarios. -/
def demoPresets : List (String × PresetCfg) :=
  [("home", ⟨some 21⟩), ("away", ⟨some 18⟩), ("sleep", ⟨some 19⟩),
    ("vacation", ⟨some 16⟩)]

/-- C4 witness: on the Scenario A table at 07:30, the returned preset "home"
is that of a latest slot at or before 07:30. -/
theorem activePresetAt_correct_witness :
    ∃ s ∈ demoTable, s.time ≤ 450 ∧ s.preset = "home" ∧
      ∀ t ∈ demoTable, t.time ≤ 450 → t.time ≤ s.time :=
  (activePresetAt_correct demoTable 450).2 "home" (by decide)

/-- C5 witness: on the Scenario A table at 07:30, the returned next time
08:00 is strictly future and minimal among future slot times. -/
theorem getNextSchedule_correct_witness :
    450 < 480 ∧ (∃ s ∈ demoTable, s.time = 480) ∧
      ∀ s ∈ demoTable, 450 < s.time → 480 ≤ s.time :=
  (getNextSchedule_correct demoTable 450).1 480 (by decide)

/-- C9 witness: with an empty preset catalog the next transition's preset
"away" is absent, so the next temperature is `none`. -/
theorem getNextTemperature_none_propagates_witness :
    getNextTemperature demoTable [] 450 = none :=
  (getNextTemperature_none_propagates demoTable [] 450).2 ⟨480, "away"⟩
    (by decide) (by decide)

/-- C6: a preset name outside the supported set is rejected without raising:
the whole state (preset, target, hvac, lastChange) is unchanged and no
apply-request is dispatched. -/
theorem setPresetMode_invalid_rejected (presets : List (String × PresetCfg))
    (st : SchedState) (now : Nat) (p : String) (h : p ∉ presetModes) :
    setPresetMode presets st now p = (st, false) := by
  rw [setPresetMode, if_neg h]

/-- C6 witness: `setPresetMode "bogus"` leaves the state untouched. -/
theorem setPresetMode_invalid_rejected_witness :
    "bogus" ∉ presetModes ∧
      setPresetMode demoPresets ⟨"home", some 21, "heat_cool", none⟩ 0 "bogus"
        = (⟨"home", some 21, "heat_cool", none⟩, false) :=
  ⟨by decide,
    setPresetMode_invalid_rejected demoPresets
      ⟨"home", some 21, "heat_cool", none⟩ 0 "bogus" (by decide)⟩

/-- C10: `async_set_temperature` with a falsy temperature value (0, or no
value at all) is a silent no-op: the state is unchanged and no apply-request
is dispatched. -/
theorem setTemperature_falsy_noop (st : SchedState) :
    setTemperature st (some 0) = (st, false) ∧
      setTemperature st none = (st, false) := by
  constructor
  · rw [setTemperature]
    simp
  · rfl

/-- C2 counterexample: with "away" accepted but absent from the catalog, the
target temperature is not left unchanged -- it is overwritten with the
default 21 (the previous target was 18). -/
theorem setPresetMode_defaults_temperature_cex :
    "away" ∈ presetModes ∧
      List.lookup "away" ([] : List (String × PresetCfg)) = none ∧
      ((setPresetMode [] ⟨"home", some 18, "heat_cool", none⟩ 0 "away").1).target
        = some 21 ∧
      ((setPresetMode [] ⟨"home", some 18, "heat_cool", none⟩ 0 "away").1).target
        ≠ some 18 := by
  refine ⟨by decide, rfl, rfl, ?_⟩
  intro h
  have : (21 : ℚ) = 18 := by injection h
  norm_num at this

/-- C2 amended: for an accepted preset whose catalog entry has no
temperature (or which is absent from the catalog), `async_set_preset_mode`
sets the target temperature to the built-in default 21. -/
theorem setPresetMode_missing_temperature_default
    (presets : List (String × PresetCfg)) (st : SchedState) (now : Nat)
    (p : String) (hp : p ∈ presetModes)
    (hnone : (((presets.lookup p).getD ⟨none⟩).temperature) = none) :
    ((setPresetMode presets st now p).1).target = some 21 := by
  rw [setPresetMode, if_pos hp]
  show some (presetTemp presets p) = some 21
  rw [presetTemp, hnone]
  rfl

/-- C2 amended witness. -/
theorem setPresetMode_missing_temperature_default_witness :
    ((setPresetMode [] ⟨"home", some 18, "heat_cool", none⟩ 0 "away").1).target
      = some 21 :=
  setPresetMode_missing_temperature_default []
    ⟨"home", some 18, "heat_cool", none⟩ 0 "away" (by decide) (by decide)

/-- C1: a schedule-driven preset change does NOT leave `_last_preset_change`
unchanged -- `_async_check_schedule` delegates to `async_set_preset_mode`,
which stamps it. Concretely: a tick at 08:00 switches home → away and stamps
the change time, so the scheduled 08:15 switch back to home is then
suppressed as if it were a manual override. -/
theorem tick_schedule_change_stamps_lastChange :
    (((tick [("weekday", [⟨480, "away"⟩, ⟨495, "home"⟩])] demoPresets true
        480 28800 ⟨"home", some 21, "heat_cool", none⟩).1).lastChange
      = some 28800) ∧
    (((tick [("weekday", [⟨480, "away"⟩, ⟨495, "home"⟩])] demoPresets true
        495 29700
        ((tick [("weekday", [⟨480, "away"⟩, ⟨495, "home"⟩])] demoPresets true
          480 28800 ⟨"home", some 21, "heat_cool", none⟩).1)).1).preset
      = "away") := by
  constructor
  · rfl
  · rfl

/-- C3: after a manual preset change to `p` at absolute time `T`, a tick at
`T' < T + 30min` whose resolved preset `q` differs from the active preset
leaves the active preset at `p`; a tick at `T' >= T + 30min` applies the
schedule-driven change to `q`. -/
theorem override_law (schedules : List (String × List Slot))
    (presets : List (String × PresetCfg)) (isWeekday : Bool)
    (st : SchedState) (p q : String) (T T' tod : Nat)
    (hp : p ∈ presetModes) (hq : q ∈ presetModes) (hpq : q ≠ p)
    (hactive : activePresetAt (dayScheduleOf schedules isWeekday) tod = some q)
    (hT : T ≤ T') :
    (T' < T + 1800 →
      ((tick schedules presets isWeekday tod T'
          (setPresetMode presets st T p).1).1).preset = p) ∧
    (T + 1800 ≤ T' →
      ((tick schedules presets isWeekday tod T'
          (setPresetMode presets st T p).1).1).preset = q) := by
  have hq0 : q ≠ "" := by
    intro h0
    rw [h0] at hq
    exact absurd hq (by decide)
  have hsch : ¬ (schedules = []) := by
    intro hnil
    rw [hnil] at hactive
    exact Option.noConfusion hactive
  have hds : ¬ (dayScheduleOf schedules isWeekday = []) := by
    intro hnil
    rw [hnil] at hactive
    exact Option.noConfusion hactive
  have hs1 : (setPresetMode presets st T p).1 =
      { st with
          preset := p
          lastChange := some T
          target := some (presetTemp presets p) } := by
    rw [setPresetMode, if_pos hp]
  rw [hs1]
  constructor
  · intro hlt
    simp only [tick, if_neg hsch, if_neg hds, hactive, if_neg hq0, if_neg hpq,
      if_pos (show T' - T < 1800 by omega)]
  · intro hge
    simp only [tick, if_neg hsch, if_neg hds, hactive, if_neg hq0, if_neg hpq,
      if_neg (show ¬ (T' - T < 1800) by omega), setPresetMode, if_pos hq]

/-- C3 witness: the spec's Scenario C. Manual change to "vacation" at 10:00;
the schedule resolves "away" from 10:00 on; the tick at 10:20 is suppressed,
the tick at 10:31 switches to "away". -/
theorem override_law_witness :
    (((tick [("weekday", [⟨600, "away"⟩])] demoPresets true 620 37200
        (setPresetMode demoPresets ⟨"home", some 21, "heat_cool", none⟩
          36000 "vacation").1).1).preset = "vacation") ∧
    (((tick [("weekday", [⟨600, "away"⟩])] demoPresets true 631 37860
        (setPresetMode demoPresets ⟨"home", some 21, "heat_cool", none⟩
          36000 "vacation").1).1).preset = "away") :=
  ⟨(override_law [("weekday", [⟨600, "away"⟩])] demoPresets true
      ⟨"home", some 21, "heat_cool", none⟩ "vacation" "away" 36000 37200 620
      (by decide) (by decide) (by decide) (by decide) (by decide)).1
      (by decide),
   (override_law [("weekday", [⟨600, "away"⟩])] demoPresets true
      ⟨"home", some 21, "heat_cool", none⟩ "vacation" "away" 36000 37860 631
      (by decide) (by decide) (by decide) (by decide) (by decide)).2
      (by decide)⟩

/-- C7: ticking twice at the same instant with the same schedule table and
preset catalog is idempotent -- the second tick leaves the state exactly as
the first left it (and dispatches nothing). -/
theorem tick_idempotent (schedules : List (String × List Slot))
    (presets : List (String × PresetCfg)) (isWeekday : Bool)
    (tod : Nat) (nowAbs : Nat) (st : SchedState) :
    tick schedules presets isWeekday tod nowAbs
        ((tick schedules presets isWeekday tod nowAbs st).1) =
      ((tick schedules presets isWeekday tod nowAbs st).1, false) := by
  by_cases h1 : schedules = []
  · simp [tick, h1]
  by_cases h2 : dayScheduleOf schedules isWeekday = []
  · simp [tick, h1, h2]
  cases hact : activePresetAt (dayScheduleOf schedules isWeekday) tod with
  | none => simp [tick, h1, h2, hact]
  | some p =>
    by_cases hp0 : p = ""
    · simp [tick, h1, h2, hact, hp0]
    by_cases hps : p = st.preset
    · simp [tick, h1, h2, hact, hp0, hps]
    by_cases hpm : p ∈ presetModes
    · cases hlc : st.lastChange with
      | some last =>
        by_cases hsup : nowAbs - last < 1800
        · simp [tick, h1, h2, hact, hp0, hps, hlc, hsup]
        · simp [tick, setPresetMode, h1, h2, hact, hp0, hps, hlc, hsup, hpm]
      | none => simp [tick, setPresetMode, h1, h2, hact, hp0, hps, hlc, hpm]
    · cases hlc : st.lastChange with
      | some last =>
        by_cases hsup : nowAbs - last < 1800
        · simp [tick, h1, h2, hact, hp0, hps, hlc, hsup]
        · simp [tick, setPresetMode, h1, h2, hact, hp0, hps, hlc, hsup, hpm]
      | none => simp [tick, setPresetMode, h1, h2, hact, hp0, hps, hlc, hpm]

/-- C8 counterexample: a snapshot whose temperature attribute `float(...)`
raises on, but whose preset_mode attribute is a valid "away", restores
NOTHING: the failed field is not ignored individually, it aborts the whole
restore block and the valid preset_mode is dropped too. -/
theorem restoreState_not_field_individual_cex :
    restoreState ⟨"home", none, "heat_cool", none⟩
        (some ⟨some "ok", some AttrVal.nonNumeric, some "away"⟩) =
      ⟨"home", none, "heat_cool", none⟩ ∧
    (restoreState ⟨"home", none, "heat_cool", none⟩
        (some ⟨some "ok", some AttrVal.nonNumeric, some "away"⟩)).preset
      ≠ "away" := by
  constructor
  · rfl
  · decide

/-- C8 amended: restoration is all-or-nothing. If converting the snapshot's
temperature (default 21 when missing) fails, neither field is restored; if it
succeeds, both the target temperature and the preset (default "home" when
missing) are restored. Restoration is total -- it never raises. -/
theorem restoreState_block_semantics (st : SchedState) (s : Snapshot)
    (hok : ¬ (s.state = some "unavailable" ∨ s.state = some "unknown" ∨
      s.state = none)) :
    (floatOfAttr ((s.temperature).getD (.num 21)) = none →
      restoreState st (some s) = st) ∧
    (∀ q, floatOfAttr ((s.temperature).getD (.num 21)) = some q →
      restoreState st (some s) =
        { st with target := some q, preset := (s.presetMode).getD "home" }) := by
  constructor
  · intro h
    simp only [restoreState, if_neg hok, h]
  · intro q h
    simp only [restoreState, if_neg hok, h]

/-- C8 amended witness: a fully valid snapshot restores both fields. -/
theorem restoreState_block_semantics_witness :
    restoreState ⟨"home", none, "heat_cool", none⟩
        (some ⟨some "ok", some (AttrVal.num 19), some "away"⟩) =
      ⟨"away", some 19, "heat_cool", none⟩ :=
  (restoreState_block_semantics ⟨"home", none, "heat_cool", none⟩
      ⟨some "ok", some (AttrVal.num 19), some "away"⟩ (by decide)).2 19 rfl

end ClimateScheduler
